import Mathlib

/-!
# badger-cli: statement dispatch and interactive session

A shallow embedding of `badger-cli.go`: the statement dispatcher
(`runSingleStatement`), the interactive front (`runStatements`,
`runInteractive`) and the entry point (`runCli`).

Conventions of the embedding.

* Go strings and byte slices are Lean `String`s; the conversions `[]byte(s)`
  and the verb `%s` are the identity on them.
* The process state the code acts on is a `World`: the store behind the
  handle `kv *badger.KV`, and what has been written so far to standard
  output and to the error stream.
* The store is an external library. Its operations are a parameter
  (`KV σ`, over an arbitrary state type `σ`); every call passes the store
  state through, so a call may change it.
* A Go run-time panic (index out of range) is the `error` side of `Except`.
-/

namespace BadgerCli

/-! ## Data model -/

/-- The two values of `cliStateEnum` (`cliStart = iota`, `cliStop`). -/
inductive cliStateEnum where
  | cliStart
  | cliStop
  deriving DecidableEq, Repr

open cliStateEnum

/-- A Go `error` value returned by the store or by readline; `Error` is its
rendering, which is what the verb `%v` prints. -/
structure KVError where
  Error : String
  deriving DecidableEq, Repr

/-- The run-time panic of an index expression `s[i]` with `i ≥ len(s)`. -/
inductive Panic where
  | indexOutOfRange (index length : Nat)
  deriving DecidableEq, Repr

/-- A `badger.KVItem`: the methods `Key()` and `Value()` read these fields. -/
structure KVItem where
  Key : String
  Value : String
  deriving DecidableEq, Repr

/-- Modelled from the spec: the iterator of the store (`badger.Iterator`), a
forward cursor over the entries of the store in the key order of the store,
with the operations `Rewind`, `Valid`, `Next` and `Item`. -/
structure Iterator where
  items : List KVItem
  pos : Nat
  deriving DecidableEq, Repr

/-- The operation `itr.Rewind()`: back to the first entry. -/
def Iterator.Rewind (itr : Iterator) : Iterator :=
  { itr with pos := 0 }

/-- The operation `itr.Valid()`: the cursor is on an entry. -/
def Iterator.Valid (itr : Iterator) : Bool :=
  decide (itr.pos < itr.items.length)

/-- The operation `itr.Next()`: one entry forward. -/
def Iterator.Next (itr : Iterator) : Iterator :=
  { itr with pos := itr.pos + 1 }

/-- The operation `itr.Item()`: the entry under the cursor. -/
def Iterator.Item (itr : Iterator) : KVItem :=
  itr.items.getD itr.pos ⟨"", ""⟩

/-- Modelled from the spec: the store handle `*badger.KV`, over a store state
`σ`. `Get` fills an item and returns an error or nil, `Set` takes key, value
and the meta byte, `Delete` takes the key; each returns the store state after
the call. `NewIterator` opens a cursor on the entries. -/
structure KV (σ : Type) where
  Get : σ → String → σ × KVItem × Option KVError
  Set : σ → String → String → Nat → σ × Option KVError
  Delete : σ → String → σ × Option KVError
  NewIterator : σ → Iterator

/-- The state the program acts on: the store and the two output streams. -/
structure World (σ : Type) where
  kv : σ
  stdout : String
  stderr : String

variable {σ : Type}

/-- What `fmt.Print` and `fmt.Printf` do: append to standard output. -/
def World.print (w : World σ) (s : String) : World σ :=
  { w with stdout := w.stdout ++ s }

/-- What `fmt.Fprintf(os.Stderr, ...)` does: append to the error stream. -/
def World.eprint (w : World σ) (s : String) : World σ :=
  { w with stderr := w.stderr ++ s }

/-- The Go index expression `stmts[i]`, which panics when out of range. -/
def index (stmts : List String) (i : Nat) : Except Panic String :=
  match stmts.get? i with
  | some s => .ok s
  | none => .error (.indexOutOfRange i stmts.length)

/-! ## Help texts -/

/-- The raw string literal printed by `printCliHelp`. -/
def cliHelpText : String :=
  "Syntax:\n" ++
  "  get <KEY>                 get value by key\n" ++
  "  set <KEY> <VALUE> <META>  set item by key and value\n" ++
  "  delete <KEY>              delete item by key\n" ++
  "  dump                      dump item list\n"

/-- The raw string literal printed by `printInteractiveHelp` after the
syntax help. -/
def typeHelpText : String :=
  "Type:\n" ++
  "  \\q to exit                (Ctrl+C/Ctrl+D also supported)\n" ++
  "  \\? or \"help\"              print this help.\n"

/-- The function `printCliHelp`. -/
def printCliHelp (w : World σ) : World σ :=
  w.print cliHelpText

/-- The function `printInteractiveHelp`. -/
def printInteractiveHelp (w : World σ) : World σ :=
  (printCliHelp w).print typeHelpText

/-! ## Statement dispatch -/

/-- The loop `for itr.Rewind(); itr.Valid(); itr.Next()` of the `dump` case,
entered after `Rewind`: one `Printf("%s %s\n", key, val)` per entry. -/
def dumpLoop (itr : Iterator) (w : World σ) : World σ :=
  if _h : itr.Valid = true then
    let item := itr.Item
    let key := item.Key
    let val := item.Value
    dumpLoop itr.Next (w.print (key ++ " " ++ val ++ "\n"))
  else
    w
termination_by itr.items.length - itr.pos
decreasing_by
  simp only [Iterator.Valid, decide_eq_true_eq] at _h
  simp only [Iterator.Next]
  omega

/-- The function `runSingleStatement`. The deferred `itr.Close()` of the
`dump` case releases the iterator and writes nothing; it has no counterpart
here. -/
def runSingleStatement (kv : KV σ) (w : World σ) (stmts : List String) :
    Except Panic (World σ × cliStateEnum) :=
  (index stmts 0).bind fun verb =>
    if verb = "get" then
      if stmts.length ≠ 2 then
        .ok (printCliHelp w, cliStart)
      else
        (index stmts 1).bind fun key =>
          let r := kv.Get w.kv key
          let w1 : World σ := { w with kv := r.1 }
          let item := r.2.1
          match r.2.2 with
          | some err => .ok (w1.eprint ("error: " ++ err.Error), cliStart)
          | none =>
            if item.Value.length ≠ 0 then
              .ok (w1.print (item.Value ++ "\n"), cliStart)
            else
              .ok (w1, cliStart)
    else if verb = "set" then
      if stmts.length ≠ 3 then
        .ok (printCliHelp w, cliStart)
      else
        (index stmts 1).bind fun key =>
          (index stmts 2).bind fun value =>
            let r := kv.Set w.kv key value 0x00
            let w1 : World σ := { w with kv := r.1 }
            match r.2 with
            | some err => .ok (w1.eprint ("error: " ++ err.Error), cliStart)
            | none => .ok (w1, cliStart)
    else if verb = "delete" then
      if stmts.length ≠ 2 then
        .ok (printCliHelp w, cliStart)
      else
        (index stmts 1).bind fun key =>
          let r := kv.Delete w.kv key
          let w1 : World σ := { w with kv := r.1 }
          match r.2 with
          | some err => .ok (w1.eprint ("error: " ++ err.Error), cliStart)
          | none => .ok (w1, cliStart)
    else if verb = "dump" then
      if stmts.length ≠ 1 then
        .ok (printCliHelp w, cliStart)
      else
        let itr := kv.NewIterator w.kv
        .ok (dumpLoop itr.Rewind w, cliStart)
    else
      .ok (printCliHelp w, cliStart)

/-- The function `runStatements`. -/
def runStatements (kv : KV σ) (w : World σ) (stmts : List String) :
    Except Panic (World σ × cliStateEnum) :=
  if stmts.length = 0 then
    .ok (w, cliStart)
  else
    (index stmts 0).bind fun verb =>
      if verb = "\\q" ∨ verb = "exit" then
        .ok (w, cliStop)
      else if verb = "\\?" ∨ verb = "\\help" then
        .ok (printInteractiveHelp w, cliStart)
      else
        runSingleStatement kv w stmts

/-! ## Interactive session -/

/-- The predicate `unicode.IsSpace` of the Go library, which `strings.Fields`
and `strings.TrimSpace` split and trim on. -/
def isSpace (c : Char) : Bool :=
  let n := c.toNat
  (9 ≤ n && n ≤ 13) || n == 32 || n == 0x85 || n == 0xA0 || n == 0x1680 ||
  (0x2000 ≤ n && n ≤ 0x200A) || n == 0x2028 || n == 0x2029 || n == 0x202F ||
  n == 0x205F || n == 0x3000

/-- The scan of `strings.Fields` over the characters: `cur` is the field
being read, reversed. -/
def fieldsAux : List Char → List Char → List String
  | [], cur => if cur = [] then [] else [String.mk cur.reverse]
  | c :: cs, cur =>
    if isSpace c then
      if cur = [] then fieldsAux cs [] else String.mk cur.reverse :: fieldsAux cs []
    else
      fieldsAux cs (c :: cur)

/-- The library function `strings.Fields`: the maximal runs of non-space
characters, in order. -/
def Fields (s : String) : List String :=
  fieldsAux s.data []

/-- The library function `strings.TrimSpace`: leading and trailing white
space removed. -/
def TrimSpace (s : String) : String :=
  String.mk ((s.data.dropWhile isSpace).reverse.dropWhile isSpace).reverse

/-- What one call of `cfg.Readline()` returns: a line of text, the error
`readline.ErrInterrupt` together with the pending line buffer, or `io.EOF`. -/
inductive ReadEvent where
  | line (text : String)
  | interrupt (buffer : String)
  | eof
  deriving DecidableEq, Repr

/-- Where a session stands once the given read events are used up. `unread`
are the events the loop never asked for; `returned` tells whether the loop was
left (`break`), as opposed to waiting in `Readline` for more input. -/
structure Session (σ : Type) where
  world : World σ
  state : cliStateEnum
  unread : List ReadEvent
  returned : Bool

/-- The `for` loop of `runInteractive`, over the events that the successive
calls of `cfg.Readline()` return. -/
def interactiveLoop (kv : KV σ) :
    List ReadEvent → cliStateEnum → World σ → Except Panic (Session σ)
  | [], state, w =>
    if state = cliStop then .ok ⟨w, state, [], true⟩
    else .ok ⟨w, state, [], false⟩
  | ev :: rest, state, w =>
    if state = cliStop then .ok ⟨w, state, ev :: rest, true⟩
    else
      match ev with
      | .interrupt line =>
        if line.length = 0 then .ok ⟨w, state, rest, true⟩
        else interactiveLoop kv rest state w
      | .eof => .ok ⟨w, state, rest, true⟩
      | .line line =>
        match state with
        | cliStart =>
          let stmts := Fields (TrimSpace line)
          if stmts.length > 0 then
            (runStatements kv w stmts).bind fun r =>
              interactiveLoop kv rest r.2 r.1
          else
            interactiveLoop kv rest state w
        | cliStop => interactiveLoop kv rest state w

/-- The function `runInteractive`: `newEx` is what `readline.NewEx(config)`
returns, an error or a line source given by the events it will deliver. The
result is the returned `error` (or nil) and the session. -/
def runInteractive (kv : KV σ) (w : World σ)
    (newEx : Except KVError (List ReadEvent)) :
    Except Panic (Option KVError × Session σ) :=
  match newEx with
  | .error err => .ok (some err, ⟨w, cliStart, [], true⟩)
  | .ok events =>
    (interactiveLoop kv events cliStart w).bind fun s => .ok (none, s)

/-- The two fields of `badger.Options` that `runCli` sets. -/
structure Options where
  Dir : String
  ValueDir : String
  deriving DecidableEq, Repr

/-- What `runCli` returns: the `error` (or nil), and the world it leaves when
the store was opened. -/
structure CliResult (σ : Type) where
  err : Option KVError
  world : Option (World σ)

/-- The function `runCli`: `NewKV` is `badger.NewKV`, which opens the store
or fails; `stdout` and `stderr` are the streams at the start. The deferred
`kv.Close()` and the fields of `readline.Config` (prompt, history file) have
no counterpart here: the prompt is written by the readline library. -/
def runCli (kv : KV σ) (NewKV : Options → Except KVError σ)
    (newEx : Except KVError (List ReadEvent)) (stdout stderr : String)
    (dir valueDir : String) (args : List String) :
    Except Panic (CliResult σ) :=
  if dir = "" then
    .ok ⟨some ⟨"--dir not supplied"⟩, none⟩
  else
    let valueDir := if valueDir = "" then dir else valueDir
    match NewKV ⟨dir, valueDir⟩ with
    | .error err => .ok ⟨some err, none⟩
    | .ok s =>
      if args.length > 0 then
        (runSingleStatement kv ⟨s, stdout, stderr⟩ args).bind fun r =>
          .ok ⟨none, some r.1⟩
      else
        (runInteractive kv ⟨s, stdout, stderr⟩ newEx).bind fun r =>
          .ok ⟨r.1, some r.2.world⟩

/-! ## The contract of the store, and a reference store -/

/-- Modelled from the spec: the contract of the store operations that the
round-trip properties rest on. A `Get` that succeeds right after a `Set` of
the same key that succeeded yields the value set; a `Get` that succeeds right
after a `Delete` of the same key that succeeded yields the empty value
(not-found is not an error for `Get`). -/
structure KV.Lawful (kv : KV σ) : Prop where
  get_set : ∀ (s : σ) (k v : String) (m : Nat),
    (kv.Set s k v m).2 = none →
    (kv.Get (kv.Set s k v m).1 k).2.2 = none →
    (kv.Get (kv.Set s k v m).1 k).2.1.Value = v
  get_delete : ∀ (s : σ) (k : String),
    (kv.Delete s k).2 = none →
    (kv.Get (kv.Delete s k).1 k).2.2 = none →
    (kv.Get (kv.Delete s k).1 k).2.1.Value = ""

/-- Modelled from the spec: a reference store, the entries as a list of
key and value in key order, and a fault that, when present, makes every
operation fail with that error. -/
structure MemStore where
  entries : List (String × String)
  fault : Option KVError
  deriving DecidableEq, Repr

/-- The value stored under a key of the reference store. -/
def MemStore.lookup (k : String) : List (String × String) → Option String
  | [] => none
  | (k1, v1) :: rest => if k = k1 then some v1 else MemStore.lookup k rest

/-- The order of keys in the reference store: lexicographic on the
characters, which on UTF-8 text is the bytewise order of the store. -/
def MemStore.keyLt : List Char → List Char → Bool
  | _, [] => false
  | [], _ :: _ => true
  | a :: as, b :: bs =>
    if a.toNat < b.toNat then true
    else if a.toNat = b.toNat then MemStore.keyLt as bs
    else false

/-- Insertion into the entries of the reference store, in key order; an entry
of the same key is replaced. -/
def MemStore.insert (k v : String) : List (String × String) → List (String × String)
  | [] => [(k, v)]
  | (k1, v1) :: rest =>
    if MemStore.keyLt k.data k1.data then (k, v) :: (k1, v1) :: rest
    else if k = k1 then (k, v) :: rest
    else (k1, v1) :: MemStore.insert k v rest

/-- Removal of a key from the entries of the reference store. -/
def MemStore.erase (k : String) : List (String × String) → List (String × String)
  | [] => []
  | (k1, v1) :: rest =>
    if k = k1 then MemStore.erase k rest else (k1, v1) :: MemStore.erase k rest

/-- Modelled from the spec: the store operations on the reference store. -/
def memKV : KV MemStore where
  Get := fun s k =>
    match s.fault with
    | some e => (s, ⟨k, ""⟩, some e)
    | none => (s, ⟨k, (MemStore.lookup k s.entries).getD ""⟩, none)
  Set := fun s k v _ =>
    match s.fault with
    | some e => (s, some e)
    | none => ({ s with entries := MemStore.insert k v s.entries }, none)
  Delete := fun s k =>
    match s.fault with
    | some e => (s, some e)
    | none => ({ s with entries := MemStore.erase k s.entries }, none)
  NewIterator := fun s => ⟨s.entries.map fun e => ⟨e.1, e.2⟩, 0⟩

/-- The reference store with no entry. -/
def MemStore.empty : MemStore := ⟨[], none⟩

/-! ## The session trace, as the specification words it -/

/-- The stopping events as the specification lists them: end-of-input, an
interrupt whose pending buffer is empty, a text line whose first token is
`\\q` or `exit`. -/
def ReadEvent.isStopping : ReadEvent → Bool
  | .eof => true
  | .interrupt buffer => buffer.length == 0
  | .line text =>
    match Fields (TrimSpace text) with
    | verb :: _ => verb == "\\q" || verb == "exit"
    | [] => false

/-- The statements of a run of events as the specification words them: the
non-empty white-space-split token lists of the text lines, in order. -/
def statementsOf : List ReadEvent → List (List String)
  | [] => []
  | .line text :: rest =>
    if Fields (TrimSpace text) = [] then statementsOf rest
    else Fields (TrimSpace text) :: statementsOf rest
  | _ :: rest => statementsOf rest

/-- The statements dispatched one after the other with `runStatements`, each
on the world the one before left. -/
def dispatchAll (kv : KV σ) (w : World σ) : List (List String) → Except Panic (World σ)
  | [] => .ok w
  | stmts :: rest => (runStatements kv w stmts).bind fun r => dispatchAll kv r.1 rest

/-! ## Usage errors -/

/-- C1. A usage error never touches the store: on a statement `verb :: args`
whose verb is none of get, set, delete, dump, or whose length is not the one
the verb requires (2 for get and delete, 3 for set, 1 for dump),
`runSingleStatement` appends exactly the syntax help to standard output,
leaves the error stream and the store as they were, and returns `cliStart`.
The store operations being arbitrary, it performs none of them. -/
theorem usage_error_prints_help (kv : KV σ) (w : World σ) (verb : String)
    (args : List String)
    (h : (verb ≠ "get" ∧ verb ≠ "set" ∧ verb ≠ "delete" ∧ verb ≠ "dump") ∨
      ((verb = "get" ∨ verb = "delete") ∧ (verb :: args).length ≠ 2) ∨
      (verb = "set" ∧ (verb :: args).length ≠ 3) ∨
      (verb = "dump" ∧ (verb :: args).length ≠ 1)) :
    runSingleStatement kv w (verb :: args) =
      .ok (⟨w.kv, w.stdout ++ cliHelpText, w.stderr⟩, cliStart) := by
  rcases h with ⟨h1, h2, h3, h4⟩ | ⟨h1 | h1, h2⟩ | ⟨h1, h2⟩ | ⟨h1, h2⟩
  · simp [runSingleStatement, index, Except.bind, h1, h2, h3, h4, printCliHelp,
      World.print]
  · subst h1
    simp only [List.length_cons] at h2
    simp [runSingleStatement, index, Except.bind, h2, printCliHelp, World.print]
  · subst h1
    simp only [List.length_cons] at h2
    simp [runSingleStatement, index, Except.bind, h2, printCliHelp, World.print]
  · subst h1
    simp only [List.length_cons] at h2
    simp [runSingleStatement, index, Except.bind, h2, printCliHelp, World.print]
  · subst h1
    simp only [List.length_cons] at h2
    simp [runSingleStatement, index, Except.bind, h2, printCliHelp, World.print]

/-- C1 at `get a b` on the reference store holding one entry. -/
theorem usage_error_prints_help_witness :
    runSingleStatement memKV ⟨⟨[("a", "1")], none⟩, "", ""⟩ ("get" :: ["a", "b"]) =
      .ok (⟨⟨[("a", "1")], none⟩, "" ++ cliHelpText, ""⟩, cliStart) :=
  usage_error_prints_help memKV ⟨⟨[("a", "1")], none⟩, "", ""⟩ "get" ["a", "b"]
    (Or.inr (Or.inl ⟨Or.inl rfl, by decide⟩))

/-! ## The reference store keeps the contract -/

theorem MemStore.lookup_insert (k v : String) (es : List (String × String)) :
    MemStore.lookup k (MemStore.insert k v es) = some v := by
  induction es with
  | nil => simp [MemStore.insert, MemStore.lookup]
  | cons e rest ih =>
    obtain ⟨k1, v1⟩ := e
    simp only [MemStore.insert]
    split
    · simp [MemStore.lookup]
    · split
      · simp [MemStore.lookup]
      · rename_i hne
        simp [MemStore.lookup, hne, ih]

theorem MemStore.lookup_erase (k : String) (es : List (String × String)) :
    MemStore.lookup k (MemStore.erase k es) = none := by
  induction es with
  | nil => simp [MemStore.erase, MemStore.lookup]
  | cons e rest ih =>
    obtain ⟨k1, v1⟩ := e
    simp only [MemStore.erase]
    split
    · exact ih
    · rename_i hne
      simp [MemStore.lookup, hne, ih]

theorem memKV_lawful : memKV.Lawful := by
  constructor
  · intro s k v m hset _
    cases hf : s.fault with
    | some e => simp [memKV, hf] at hset
    | none => simp [memKV, hf, MemStore.lookup_insert]
  · intro s k hdel _
    cases hf : s.fault with
    | some e => simp [memKV, hf] at hdel
    | none => simp [memKV, hf, MemStore.lookup_erase]

/-! ## Round trips -/

/-- C2. Set then get: on a store that keeps the contract, for every key `k`
and every non-empty value `v`, when the `Set` and the following `Get` succeed,
`set k v` prints nothing and `get k` appends exactly `v` and a newline to
standard output and nothing to the error stream; both return `cliStart`. -/
theorem set_get_roundtrip (kv : KV σ) (hlaw : kv.Lawful) (w : World σ)
    (k v : String) (hv : v ≠ "")
    (hset : (kv.Set w.kv k v 0).2 = none)
    (hget : (kv.Get (kv.Set w.kv k v 0).1 k).2.2 = none) :
    ∃ w1 w2 : World σ,
      runSingleStatement kv w ["set", k, v] = .ok (w1, cliStart) ∧
      runSingleStatement kv w1 ["get", k] = .ok (w2, cliStart) ∧
      w1.stdout = w.stdout ∧ w1.stderr = w.stderr ∧
      w2.stdout = w1.stdout ++ (v ++ "\n") ∧ w2.stderr = w1.stderr := by
  have hval := hlaw.get_set w.kv k v 0 hset hget
  have hlen : v.length ≠ 0 := fun h0 => hv (String.ext (List.length_eq_zero.mp h0))
  refine ⟨⟨(kv.Set w.kv k v 0).1, w.stdout, w.stderr⟩,
    ⟨(kv.Get (kv.Set w.kv k v 0).1 k).1, w.stdout ++ (v ++ "\n"), w.stderr⟩,
    ?_, ?_, rfl, rfl, rfl, rfl⟩
  · simp [runSingleStatement, index, Except.bind, hset]
  · have h1 : runSingleStatement kv ⟨(kv.Set w.kv k v 0).1, w.stdout, w.stderr⟩ ["get", k] =
        match (kv.Get (kv.Set w.kv k v 0).1 k).2.2 with
        | some err => .ok (⟨(kv.Get (kv.Set w.kv k v 0).1 k).1, w.stdout,
            w.stderr ++ ("error: " ++ err.Error)⟩, cliStart)
        | none =>
          if (kv.Get (kv.Set w.kv k v 0).1 k).2.1.Value.length ≠ 0 then
            .ok (⟨(kv.Get (kv.Set w.kv k v 0).1 k).1,
              w.stdout ++ ((kv.Get (kv.Set w.kv k v 0).1 k).2.1.Value ++ "\n"),
              w.stderr⟩, cliStart)
          else .ok (⟨(kv.Get (kv.Set w.kv k v 0).1 k).1, w.stdout, w.stderr⟩, cliStart) := by
      simp [runSingleStatement, index, Except.bind, World.print, World.eprint]
    rw [h1, hget, hval]
    simp [hlen]

/-- C2 at `set a 1`, `get a` on the empty reference store. -/
theorem set_get_roundtrip_witness :
    ("1" ≠ "" ∧
      (memKV.Set MemStore.empty "a" "1" 0).2 = none ∧
      (memKV.Get (memKV.Set MemStore.empty "a" "1" 0).1 "a").2.2 = none) ∧
    ∃ w1 w2 : World MemStore,
      runSingleStatement memKV ⟨MemStore.empty, "", ""⟩ ["set", "a", "1"] =
        .ok (w1, cliStart) ∧
      runSingleStatement memKV w1 ["get", "a"] = .ok (w2, cliStart) ∧
      w1.stdout = "" ∧ w1.stderr = "" ∧
      w2.stdout = w1.stdout ++ ("1" ++ "\n") ∧ w2.stderr = w1.stderr :=
  ⟨⟨by decide, rfl, rfl⟩,
    set_get_roundtrip memKV memKV_lawful ⟨MemStore.empty, "", ""⟩ "a" "1"
      (by decide) rfl rfl⟩

/-- C7. Set, delete, then get: on a store that keeps the contract, for every
key `k` and value `v`, when the `Set`, the `Delete` and the `Get` succeed,
none of `set k v`, `delete k`, `get k` writes anything: the get leaves
standard output and the error stream exactly as they were (no value, no
newline, no error message), and all three return `cliStart`. -/
theorem set_delete_get_prints_nothing (kv : KV σ) (hlaw : kv.Lawful)
    (w : World σ) (k v : String)
    (hset : (kv.Set w.kv k v 0).2 = none)
    (hdel : (kv.Delete (kv.Set w.kv k v 0).1 k).2 = none)
    (hget : (kv.Get (kv.Delete (kv.Set w.kv k v 0).1 k).1 k).2.2 = none) :
    ∃ w1 w2 w3 : World σ,
      runSingleStatement kv w ["set", k, v] = .ok (w1, cliStart) ∧
      runSingleStatement kv w1 ["delete", k] = .ok (w2, cliStart) ∧
      runSingleStatement kv w2 ["get", k] = .ok (w3, cliStart) ∧
      w3.stdout = w2.stdout ∧ w3.stderr = w2.stderr ∧
      w2.stdout = w.stdout ∧ w2.stderr = w.stderr := by
  have hval := hlaw.get_delete (kv.Set w.kv k v 0).1 k hdel hget
  refine ⟨⟨(kv.Set w.kv k v 0).1, w.stdout, w.stderr⟩,
    ⟨(kv.Delete (kv.Set w.kv k v 0).1 k).1, w.stdout, w.stderr⟩,
    ⟨(kv.Get (kv.Delete (kv.Set w.kv k v 0).1 k).1 k).1, w.stdout, w.stderr⟩,
    ?_, ?_, ?_, rfl, rfl, rfl, rfl⟩
  · simp [runSingleStatement, index, Except.bind, hset]
  · simp [runSingleStatement, index, Except.bind, hdel]
  · simp [runSingleStatement, index, Except.bind, hget, hval]

/-- C7 at `set a 1`, `delete a`, `get a` on the reference store holding `b`. -/
theorem set_delete_get_prints_nothing_witness :
    ((memKV.Set ⟨[("b", "2")], none⟩ "a" "1" 0).2 = none ∧
      (memKV.Delete (memKV.Set ⟨[("b", "2")], none⟩ "a" "1" 0).1 "a").2 = none ∧
      (memKV.Get (memKV.Delete (memKV.Set ⟨[("b", "2")], none⟩ "a" "1" 0).1 "a").1
        "a").2.2 = none) ∧
    ∃ w1 w2 w3 : World MemStore,
      runSingleStatement memKV ⟨⟨[("b", "2")], none⟩, "out", "err"⟩ ["set", "a", "1"] =
        .ok (w1, cliStart) ∧
      runSingleStatement memKV w1 ["delete", "a"] = .ok (w2, cliStart) ∧
      runSingleStatement memKV w2 ["get", "a"] = .ok (w3, cliStart) ∧
      w3.stdout = w2.stdout ∧ w3.stderr = w2.stderr ∧
      w2.stdout = "out" ∧ w2.stderr = "err" :=
  ⟨⟨rfl, rfl, rfl⟩,
    set_delete_get_prints_nothing memKV memKV_lawful
      ⟨⟨[("b", "2")], none⟩, "out", "err"⟩ "a" "1" rfl rfl rfl⟩

/-! ## Operational errors -/

/-- C4. A failing store operation is absorbed and reported: when the `Get` of
`get k`, the `Set` of `set k v` or the `Delete` of `delete k` fails with the
error `e`, `runSingleStatement` appends `error: ` and the rendering of `e` to
the error stream, leaves standard output as it was, and returns `cliStart`
(it does not panic). -/
theorem store_failure_reported (kv : KV σ) (w : World σ) (k v : String)
    (e : KVError) :
    ((kv.Get w.kv k).2.2 = some e →
      runSingleStatement kv w ["get", k] =
        .ok (⟨(kv.Get w.kv k).1, w.stdout, w.stderr ++ ("error: " ++ e.Error)⟩,
          cliStart)) ∧
    ((kv.Set w.kv k v 0).2 = some e →
      runSingleStatement kv w ["set", k, v] =
        .ok (⟨(kv.Set w.kv k v 0).1, w.stdout, w.stderr ++ ("error: " ++ e.Error)⟩,
          cliStart)) ∧
    ((kv.Delete w.kv k).2 = some e →
      runSingleStatement kv w ["delete", k] =
        .ok (⟨(kv.Delete w.kv k).1, w.stdout, w.stderr ++ ("error: " ++ e.Error)⟩,
          cliStart)) := by
  refine ⟨fun h => ?_, fun h => ?_, fun h => ?_⟩
  · simp [runSingleStatement, index, Except.bind, h, World.eprint]
  · simp [runSingleStatement, index, Except.bind, h, World.eprint]
  · simp [runSingleStatement, index, Except.bind, h, World.eprint]

/-- C4 at `get a`, `set a 1`, `delete a` on a reference store whose
operations fail with `disk full`. -/
theorem store_failure_reported_witness :
    runSingleStatement memKV ⟨⟨[], some ⟨"disk full"⟩⟩, "", ""⟩ ["get", "a"] =
      .ok (⟨⟨[], some ⟨"disk full"⟩⟩, "", "" ++ ("error: " ++ "disk full")⟩, cliStart) ∧
    runSingleStatement memKV ⟨⟨[], some ⟨"disk full"⟩⟩, "", ""⟩ ["set", "a", "1"] =
      .ok (⟨⟨[], some ⟨"disk full"⟩⟩, "", "" ++ ("error: " ++ "disk full")⟩, cliStart) ∧
    runSingleStatement memKV ⟨⟨[], some ⟨"disk full"⟩⟩, "", ""⟩ ["delete", "a"] =
      .ok (⟨⟨[], some ⟨"disk full"⟩⟩, "", "" ++ ("error: " ++ "disk full")⟩, cliStart) :=
  ⟨(store_failure_reported memKV ⟨⟨[], some ⟨"disk full"⟩⟩, "", ""⟩ "a" "1"
      ⟨"disk full"⟩).1 rfl,
    (store_failure_reported memKV ⟨⟨[], some ⟨"disk full"⟩⟩, "", ""⟩ "a" "1"
      ⟨"disk full"⟩).2.1 rfl,
    (store_failure_reported memKV ⟨⟨[], some ⟨"disk full"⟩⟩, "", ""⟩ "a" "1"
      ⟨"disk full"⟩).2.2 rfl⟩

/-! ## Dump -/

theorem dumpLoop_eq (n : Nat) (itr : Iterator) (w : World σ)
    (hn : itr.items.length - itr.pos = n) :
    dumpLoop itr w =
      ⟨w.kv,
        (itr.items.drop itr.pos).foldl
          (fun out item => out ++ (item.Key ++ " " ++ item.Value ++ "\n")) w.stdout,
        w.stderr⟩ := by
  induction n generalizing itr w with
  | zero =>
    have hle : itr.items.length ≤ itr.pos := by omega
    rw [dumpLoop]
    simp [Iterator.Valid, hle, List.drop_eq_nil_of_le hle]
  | succ m ih =>
    have hlt : itr.pos < itr.items.length := by omega
    rw [dumpLoop]
    have hnext : itr.Next.items.length - itr.Next.pos = m := by
      simp only [Iterator.Next]
      omega
    simp only [Iterator.Valid, hlt, decide_True, dite_true]
    rw [ih itr.Next _ hnext]
    have hitem : itr.Item = itr.items[itr.pos] := by
      simp [Iterator.Item, List.getElem?_eq_getElem hlt]
    rw [List.drop_eq_getElem_cons hlt, hitem]
    simp only [Iterator.Next, World.print, List.foldl_cons]

/-- C3. Dump is a faithful, read-only full scan: `runSingleStatement` on
`dump` appends to standard output one line `key value` (key, one space,
value, newline) for each entry the iterator of the store holds, in the order
of the iterator and nothing else, leaves the store and the error stream as
they were and returns `cliStart`; and on the reference store, after
`set a 1` and `set b 2` from the empty store, the output of `dump` is exactly
the two lines `a 1` and `b 2`. -/
theorem dump_full_scan :
    (∀ (σ : Type) (kv : KV σ) (w : World σ),
      runSingleStatement kv w ["dump"] =
        .ok (⟨w.kv,
          (kv.NewIterator w.kv).items.foldl
            (fun out item => out ++ (item.Key ++ " " ++ item.Value ++ "\n")) w.stdout,
          w.stderr⟩, cliStart)) ∧
    ∃ w1 w2 w3 : World MemStore,
      runSingleStatement memKV ⟨MemStore.empty, "", ""⟩ ["set", "a", "1"] =
        .ok (w1, cliStart) ∧
      runSingleStatement memKV w1 ["set", "b", "2"] = .ok (w2, cliStart) ∧
      runSingleStatement memKV w2 ["dump"] = .ok (w3, cliStart) ∧
      w3.stdout = "a 1\nb 2\n" ∧ w3.stderr = "" ∧ w3.kv = w2.kv := by
  have hgen : ∀ (σ : Type) (kv : KV σ) (w : World σ),
      runSingleStatement kv w ["dump"] =
        .ok (⟨w.kv,
          (kv.NewIterator w.kv).items.foldl
            (fun out item => out ++ (item.Key ++ " " ++ item.Value ++ "\n")) w.stdout,
          w.stderr⟩, cliStart) := by
    intro σ kv w
    have h := dumpLoop_eq _ (kv.NewIterator w.kv).Rewind w rfl
    simp only [Iterator.Rewind, List.drop_zero] at h
    simp [runSingleStatement, index, Except.bind, Iterator.Rewind, h]
  refine ⟨hgen, ⟨⟨[("a", "1")], none⟩, "", ""⟩, ⟨⟨[("a", "1"), ("b", "2")], none⟩, "", ""⟩,
    ⟨⟨[("a", "1"), ("b", "2")], none⟩, "a 1\nb 2\n", ""⟩, rfl, rfl, ?_, rfl, rfl, rfl⟩
  rw [hgen]
  rfl

/-! ## Continuation signal -/

theorem runSingleStatement_ok (kv : KV σ) (w : World σ) (verb : String)
    (args : List String) :
    ∃ w1 : World σ, runSingleStatement kv w (verb :: args) = .ok (w1, cliStart) := by
  rcases args with _ | ⟨a, _ | ⟨b, _ | ⟨c, rest⟩⟩⟩ <;>
    simp only [runSingleStatement, index, List.get?, Except.bind, List.length_cons,
      List.length_nil] <;>
    repeat' (first | exact ⟨_, rfl⟩ | split)

theorem runStatements_quit (kv : KV σ) (w : World σ) (verb : String)
    (args : List String) (h : verb = "\\q" ∨ verb = "exit") :
    runStatements kv w (verb :: args) = .ok (w, cliStop) := by
  simp [runStatements, index, Except.bind, h]

theorem runStatements_continue (kv : KV σ) (w : World σ) (verb : String)
    (args : List String) (h : ¬ (verb = "\\q" ∨ verb = "exit")) :
    ∃ w1 : World σ, runStatements kv w (verb :: args) = .ok (w1, cliStart) := by
  by_cases hh : verb = "\\?" ∨ verb = "\\help"
  · exact ⟨printInteractiveHelp w, by simp [runStatements, index, Except.bind, h, hh]⟩
  · obtain ⟨w1, h1⟩ := runSingleStatement_ok kv w verb args
    exact ⟨w1, by simp [runStatements, index, Except.bind, h, hh, h1]⟩

/-- C6. Only a termination token stops the session: for every store, world
and token list, either the list starts with `\\q` or `exit` and `runStatements`
returns `cliStop` with the world (store and both streams) exactly as it was,
or it does not and `runStatements` returns `cliStart`, whatever the statement
does (this covers the empty list, the help tokens, usage errors and store
failures). -/
theorem runStatements_stop_iff_quit (kv : KV σ) (w : World σ) (stmts : List String) :
    ((∃ verb args, stmts = verb :: args ∧ (verb = "\\q" ∨ verb = "exit")) ∧
      runStatements kv w stmts = .ok (w, cliStop)) ∨
    ((¬ ∃ verb args, stmts = verb :: args ∧ (verb = "\\q" ∨ verb = "exit")) ∧
      ∃ w1 : World σ, runStatements kv w stmts = .ok (w1, cliStart)) := by
  cases stmts with
  | nil =>
    right
    exact ⟨by simp, w, by simp [runStatements]⟩
  | cons verb args =>
    by_cases h : verb = "\\q" ∨ verb = "exit"
    · left
      exact ⟨⟨verb, args, rfl, h⟩, runStatements_quit kv w verb args h⟩
    · right
      refine ⟨?_, runStatements_continue kv w verb args h⟩
      rintro ⟨verb1, args1, heq, hq⟩
      simp only [List.cons.injEq] at heq
      exact h (heq.1 ▸ hq)

/-! ## What the help text documents -/

theorem typeHelpText_length : typeHelpText.length ≠ 0 := by
  have h6 : "Type:\n".length = 6 := by decide
  rw [typeHelpText, String.length_append, String.length_append, h6]
  omega

/-- C8. The token `help`, which the interactive help names, does not reach
the interactive help: `runStatements` on `help` prints the syntax help alone
(through the default case of `runSingleStatement`), which is not the output
of `printInteractiveHelp`; the token the code matches is `\\help`. -/
theorem help_token_prints_syntax_help_only (kv : KV σ) (w : World σ) :
    runStatements kv w ["help"] =
      .ok (⟨w.kv, w.stdout ++ cliHelpText, w.stderr⟩, cliStart) ∧
    runStatements kv w ["help"] ≠ .ok (printInteractiveHelp w, cliStart) ∧
    runStatements kv w ["\\help"] = .ok (printInteractiveHelp w, cliStart) ∧
    runStatements kv w ["\\?"] = .ok (printInteractiveHelp w, cliStart) := by
  have h1 : runStatements kv w ["help"] =
      .ok (⟨w.kv, w.stdout ++ cliHelpText, w.stderr⟩, cliStart) := by
    simp [runStatements, runSingleStatement, index, Except.bind, printCliHelp,
      World.print]
  refine ⟨h1, ?_, ?_, ?_⟩
  · rw [h1]
    intro h
    have hout := congrArg (fun r => r.1.stdout.length) (Except.ok.inj h)
    simp only [printInteractiveHelp, printCliHelp, World.print,
      String.length_append] at hout
    exact typeHelpText_length (by omega)
  · simp [runStatements, index, Except.bind]
  · simp [runStatements, index, Except.bind]

/-- C9. The statement `set k v m`, in the form `set <KEY> <VALUE> <META>` of
the syntax help, is refused: `runSingleStatement` prints the syntax help and
leaves the store as it was, for every store and all tokens; on the empty
reference store a following `get a` prints nothing. -/
theorem set_with_meta_prints_help (kv : KV σ) (w : World σ) (k v m : String) :
    runSingleStatement kv w ["set", k, v, m] =
      .ok (⟨w.kv, w.stdout ++ cliHelpText, w.stderr⟩, cliStart) ∧
    runSingleStatement memKV ⟨MemStore.empty, "", ""⟩ ["set", "a", "1", "0"] =
      .ok (⟨MemStore.empty, cliHelpText, ""⟩, cliStart) ∧
    runSingleStatement memKV ⟨MemStore.empty, cliHelpText, ""⟩ ["get", "a"] =
      .ok (⟨MemStore.empty, cliHelpText, ""⟩, cliStart) := by
  refine ⟨?_, rfl, rfl⟩
  simp [runSingleStatement, index, Except.bind, printCliHelp, World.print]

/-! ## Session trace -/

theorem interactiveLoop_stopped (kv : KV σ) (w : World σ) (events : List ReadEvent) :
    interactiveLoop kv events cliStop w = .ok ⟨w, cliStop, events, true⟩ := by
  cases events <;> simp [interactiveLoop]

theorem interactiveLoop_trace (kv : KV σ) (w : World σ) (events : List ReadEvent) :
    ∃ s : Session σ,
      interactiveLoop kv events cliStart w = .ok s ∧
      dispatchAll kv w (statementsOf (events.takeWhile fun e => !e.isStopping)) =
        .ok s.world ∧
      s.unread = (events.dropWhile fun e => !e.isStopping).tail ∧
      s.returned = !(events.dropWhile fun e => !e.isStopping).isEmpty ∧
      (s.state = cliStop ↔
        ∃ text rest, (events.dropWhile fun e => !e.isStopping) = .line text :: rest) := by
  induction events generalizing w with
  | nil => exact ⟨⟨w, cliStart, [], false⟩, by simp [interactiveLoop, statementsOf, dispatchAll]⟩
  | cons ev rest ih =>
    cases ev with
    | eof =>
      have hstop : ReadEvent.isStopping .eof = true := rfl
      exact ⟨⟨w, cliStart, rest, true⟩,
        by simp [interactiveLoop, hstop, statementsOf, dispatchAll]⟩
    | interrupt buffer =>
      by_cases hb : buffer.length = 0
      · have hstop : ReadEvent.isStopping (.interrupt buffer) = true := by
          simp [ReadEvent.isStopping, hb]
        exact ⟨⟨w, cliStart, rest, true⟩,
          by simp [interactiveLoop, hstop, statementsOf, dispatchAll, hb]⟩
      · have hstop : ReadEvent.isStopping (.interrupt buffer) = false := by
          simp [ReadEvent.isStopping, hb]
        obtain ⟨s, h1, h2, h3, h4, h5⟩ := ih w
        exact ⟨s, by simp [interactiveLoop, hstop, statementsOf, hb, h1, h2, h3, h4, h5]⟩
    | line text =>
      cases hf : Fields (TrimSpace text) with
      | nil =>
        have hstop : ReadEvent.isStopping (.line text) = false := by
          simp [ReadEvent.isStopping, hf]
        obtain ⟨s, h1, h2, h3, h4, h5⟩ := ih w
        exact ⟨s, by simp [interactiveLoop, hstop, statementsOf, hf, h1, h2, h3, h4, h5]⟩
      | cons verb args =>
        by_cases hq : verb = "\\q" ∨ verb = "exit"
        · have hr := runStatements_quit kv w verb args hq
          have hstop : ReadEvent.isStopping (.line text) = true := by
            simp only [ReadEvent.isStopping, hf]
            simpa using hq
          exact ⟨⟨w, cliStop, rest, true⟩,
            by simp [interactiveLoop, hf, hr, Except.bind, interactiveLoop_stopped, hstop,
              statementsOf, dispatchAll]⟩
        · obtain ⟨w1, hr⟩ := runStatements_continue kv w verb args hq
          have hstop : ReadEvent.isStopping (.line text) = false := by
            simp only [ReadEvent.isStopping, hf]
            simpa using hq
          obtain ⟨s, h1, h2, h3, h4, h5⟩ := ih w1
          exact ⟨s, by simp [interactiveLoop, hf, hr, Except.bind, hstop, statementsOf,
            dispatchAll, h1, h2, h3, h4, h5]⟩

/-- C5. Session trace of `runInteractive`: for every finite sequence of read
events, the session returns without error or panic; the stopping events are
end-of-input, an interrupt with an empty buffer and a text line whose first
token is `\\q` or `exit`; the world the session leaves is the one obtained by
dispatching, in order, exactly the non-empty token lists of the text lines
before the first stopping event (interrupts with a non-empty buffer are
skipped); every event after the first stopping event is left unread; the loop
is left exactly when there is a stopping event, and the state is `cliStop`
exactly when that event is a termination line. -/
theorem runInteractive_trace (kv : KV σ) (w : World σ) (events : List ReadEvent) :
    ∃ s : Session σ,
      runInteractive kv w (.ok events) = .ok (none, s) ∧
      dispatchAll kv w (statementsOf (events.takeWhile fun e => !e.isStopping)) =
        .ok s.world ∧
      s.unread = (events.dropWhile fun e => !e.isStopping).tail ∧
      s.returned = !(events.dropWhile fun e => !e.isStopping).isEmpty ∧
      (s.state = cliStop ↔
        ∃ text rest, (events.dropWhile fun e => !e.isStopping) = .line text :: rest) := by
  obtain ⟨s, h1, h2⟩ := interactiveLoop_trace kv w events
  exact ⟨s, by simp [runInteractive, h1, Except.bind], h2⟩

/-! ## Index safety -/

theorem runSingleStatement_nil (kv : KV σ) (w : World σ) :
    runSingleStatement kv w [] = .error (.indexOutOfRange 0 0) := by
  simp [runSingleStatement, index, Except.bind]

theorem runStatements_ok (kv : KV σ) (w : World σ) (stmts : List String) :
    ∃ r, runStatements kv w stmts = .ok r := by
  cases stmts with
  | nil => exact ⟨(w, cliStart), by simp [runStatements]⟩
  | cons verb args =>
    by_cases hq : verb = "\\q" ∨ verb = "exit"
    · exact ⟨_, runStatements_quit kv w verb args hq⟩
    · obtain ⟨w1, h⟩ := runStatements_continue kv w verb args hq
      exact ⟨_, h⟩

/-- C10. Token indexing never goes out of range on a reachable call:
`runSingleStatement` returns normally (no index panic) on every non-empty
token list, `runStatements` on every token list, `runInteractive` on every
line source (every finite sequence of read events, or a failed `NewEx`), and
`runCli` on every argument list, directory, store and line source. -/
theorem no_index_out_of_range :
    (∀ (σ : Type) (kv : KV σ) (w : World σ) (verb : String) (args : List String),
      ∃ r, runSingleStatement kv w (verb :: args) = .ok r) ∧
    (∀ (σ : Type) (kv : KV σ) (w : World σ) (stmts : List String),
      ∃ r, runStatements kv w stmts = .ok r) ∧
    (∀ (σ : Type) (kv : KV σ) (w : World σ) (newEx : Except KVError (List ReadEvent)),
      ∃ r, runInteractive kv w newEx = .ok r) ∧
    (∀ (σ : Type) (kv : KV σ) (NewKV : Options → Except KVError σ)
      (newEx : Except KVError (List ReadEvent)) (stdout stderr dir valueDir : String)
      (args : List String),
      ∃ r, runCli kv NewKV newEx stdout stderr dir valueDir args = .ok r) := by
  have hsingle : ∀ (σ : Type) (kv : KV σ) (w : World σ) (verb : String)
      (args : List String), ∃ r, runSingleStatement kv w (verb :: args) = .ok r := by
    intro σ kv w verb args
    obtain ⟨w1, h⟩ := runSingleStatement_ok kv w verb args
    exact ⟨_, h⟩
  have hinter : ∀ (σ : Type) (kv : KV σ) (w : World σ)
      (newEx : Except KVError (List ReadEvent)), ∃ r, runInteractive kv w newEx = .ok r := by
    intro σ kv w newEx
    cases newEx with
    | error err => exact ⟨_, rfl⟩
    | ok events =>
      obtain ⟨s, h, _⟩ := interactiveLoop_trace kv w events
      exact ⟨(none, s), by simp [runInteractive, h, Except.bind]⟩
  refine ⟨hsingle, fun σ kv w stmts => runStatements_ok kv w stmts, hinter, ?_⟩
  intro σ kv NewKV newEx stdout stderr dir valueDir args
  unfold runCli
  split
  · exact ⟨_, rfl⟩
  · simp only
    split
    · exact ⟨_, rfl⟩
    · rename_i s _
      split
      · cases args with
        | nil => simp at *
        | cons verb rest =>
          obtain ⟨r, h⟩ := hsingle σ kv ⟨s, stdout, stderr⟩ verb rest
          exact ⟨_, by rw [h]; rfl⟩
      · obtain ⟨r, h⟩ := hinter σ kv ⟨s, stdout, stderr⟩ newEx
        exact ⟨_, by rw [h]; rfl⟩

end BadgerCli
